import Mathlib

/-!
Verification development for the `fillmem` interactive console
(`src/src/term.rs` and `src/src/main.rs`).

The terminal coordination subsystem is embedded shallowly: the shared
`Inner` state of `Term` (edit state, input queue, flags, edit buffer,
prompt, one-slot pending log) together with the process-wide SIGTERM
flag, the trace of bytes emitted to the terminal, and a counter of
terminal-attribute restorations form a single `Machine` record.  The
`line()` loop, `log()`, `cleanup()`, `take_ctrlc()`, the stdin-reader
thread's per-event step, and the command dispatcher's busy-flag
handling from `main.rs` are translated as pure functions over it.
Strings are modelled as lists of bytes (`List Nat`).
-/

namespace Fillmem

/-- `enum State` in src/src/term.rs: `Rest`, `Editing`, `CleanedUp`. -/
inductive EditState
  | Rest
  | Editing
  | CleanedUp
deriving DecidableEq, Repr

/--
The shared state of `Term` (struct `Inner` in src/src/term.rs) plus:
`sigterm` (the `Arc<AtomicBool>` set by the SIGTERM handler and polled
by `line()`), `out` (the trace of bytes written to the output handle
via `emit`/`cleanup`), and `restores` (how many times the original
termios attributes have been restored by `tcsetattr` in `cleanup`).
-/
structure Machine where
  state : EditState
  input : List Nat
  eof : Bool
  interrupted : Bool
  ctrlc : Bool
  buffer : List Nat
  prompt : List Nat
  sigterm : Bool
  log : Option (List Nat)
  out : List Nat
  restores : Nat
deriving DecidableEq, Repr

/-- Bytes of `"\r\x1b[0K"`: carriage return, clear to end of line. -/
def lineClear : List Nat := [13, 27, 91, 48, 75]

/-- Bytes of `"\r\n"`. -/
def crlf : List Nat := [13, 10]

/-- Bytes of `"\x08 \x08"` emitted for a backspace. -/
def backspaceEcho : List Nat := [8, 32, 8]

/-- The terminal bell byte `"\x07"`. -/
def bell : List Nat := [7]

/-- Bytes of the prompt `"fillmem> "`. -/
def promptBytes : List Nat := [102, 105, 108, 108, 109, 101, 109, 62, 32]

/-- `u8::is_ascii_graphic(b) || b == b' '` from the `line()` byte handling. -/
def isGraphicOrSpace (b : Nat) : Bool := (33 ≤ b && b ≤ 126) || b = 32

/--
`Term::cleanup`: under the lock, if the state is already `CleanedUp`
return at once; otherwise write `"\r\n"`, restore the original termios
attributes (counted by `restores`; failures are swallowed with `.ok()`)
and set the state to `CleanedUp`.
-/
def cleanup (m : Machine) : Machine :=
  match m.state with
  | .CleanedUp => m
  | _ =>
    { m with
      state := .CleanedUp
      out := m.out ++ crlf
      restores := m.restores + 1 }

/-- `Term::redraw_prompt`: emit `"\r\x1b[0K"`, the prompt, the buffer. -/
def redrawPrompt (m : Machine) : Machine :=
  { m with out := m.out ++ lineClear ++ m.prompt ++ m.buffer }

/--
`Term::log_while_editing`: move to column 0 and clear the line, emit the
message and a line break, then redraw the prompt and buffer contents.
-/
def logWhileEditing (m : Machine) (msg : List Nat) : Machine :=
  redrawPrompt { m with out := m.out ++ lineClear ++ msg ++ crlf }

/-- `self.emit("\x07")` after reporting an unrecognized byte. -/
def ringBell (m : Machine) : Machine :=
  { m with out := m.out ++ bell }

/-- ASCII decimal digits of `n`, for the `{b:?}` rendering of a `u8`. -/
def natDigits (n : Nat) : List Nat := (Nat.toDigits 10 n).map Char.toNat

/-- Bytes of the `format!("unknown b: {b:?}")` message. -/
def unknownMsg (b : Nat) : List Nat :=
  [117, 110, 107, 110, 111, 119, 110, 32, 98, 58, 32] ++ natDigits b

/-- One completed call of `Term::line` from the pure loop's viewpoint. -/
inductive LineResult
  | line (l : List Nat) (m : Machine)
  | ended (m : Machine)
  | pending (m : Machine)
deriving DecidableEq, Repr

/-- Termination measure for the `line()` loop as embedded below. -/
def loopMeasure (m : Machine) : Nat :=
  (if m.interrupted then 1 else 0) + (if m.log.isSome then 1 else 0) +
    m.input.length

/--
The body of `Term::line`'s loop (src/src/term.rs lines 270-372), as a
pure function of the machine.  Each iteration checks, in source order:
the SIGTERM flag, the `ctrlc` flag (cleared before tearing down), the
`interrupted` flag (cleared and retried), the `eof` flag, the pending
log slot (taken and rendered via `log_while_editing`), and finally the
input queue.  `pending` stands for the `wait_timeout_ms` branch: with an
empty queue and no flag set the real loop blocks for more input, which
nothing in this single-call model can supply.
-/
def lineLoop (m : Machine) : LineResult :=
  if m.sigterm then .ended (cleanup m)
  else if m.ctrlc then .ended (cleanup { m with ctrlc := false })
  else if m.interrupted then lineLoop { m with interrupted := false }
  else if m.eof then .ended (cleanup m)
  else
    match _hl : m.log with
    | some msg => lineLoop (logWhileEditing { m with log := none } msg)
    | none =>
      match _hi : m.input with
      | [] => .pending m
      | b :: rest =>
        if isGraphicOrSpace b then
          if m.buffer.length < 60 then
            lineLoop { m with
              input := rest
              buffer := m.buffer ++ [b]
              out := m.out ++ [b] }
          else lineLoop { m with input := rest }
        else if b = 3 then .ended (cleanup { m with input := rest })
        else if b = 4 then .ended (cleanup { m with input := rest })
        else if b = 13 then
          .line m.buffer
            { m with
              input := rest
              state := .Rest
              buffer := []
              out := m.out ++ crlf }
        else if b = 127 then
          if m.buffer.isEmpty then lineLoop { m with input := rest }
          else
            lineLoop { m with
              input := rest
              buffer := m.buffer.dropLast
              out := m.out ++ backspaceEcho }
        else if b = 21 then
          lineLoop (redrawPrompt { m with input := rest, buffer := [] })
        else
          lineLoop
            (ringBell (logWhileEditing { m with input := rest } (unknownMsg b)))
termination_by loopMeasure m
decreasing_by
  all_goals
    simp_all [loopMeasure, logWhileEditing, redrawPrompt, ringBell]

/--
The entry of `Term::line` (src/src/term.rs lines 252-265): under the
lock, from `Rest` clear the buffer and move to `Editing`; from `Editing`
or `CleanedUp` bail with an error.  Then the prompt is emitted.
-/
def lineEnter (m : Machine) : Except String Machine :=
  match m.state with
  | .Rest =>
    .ok { m with buffer := [], state := .Editing, out := m.out ++ m.prompt }
  | .Editing => .error "another thread is already editing"
  | .CleanedUp => .error "cleaned up already"

/-- A whole `Term::line` call: entry check, then the loop. -/
def lineCall (m : Machine) : Except String LineResult :=
  match lineEnter m with
  | .error e => .error e
  | .ok m1 => .ok (lineLoop m1)

/-- Outcome of one `Term::log` call (src/src/term.rs lines 182-208). -/
inductive LogResult
  | emittedNow (m : Machine)
  | fallback (m : Machine)
  | deposited (m : Machine)
  | blocked
deriving DecidableEq, Repr

/--
`Term::log`: in `Rest`, emit the message and `"\r\n"` at once; in
`CleanedUp`, fall back to a plain `println!` (message plus a newline,
outside raw-mode control); in `Editing`, if the one-slot `log` mailbox
is occupied the caller waits on the condvar (`blocked`), otherwise it
deposits the message and returns.
-/
def logCall (m : Machine) (msg : List Nat) : LogResult :=
  match m.state with
  | .Rest => .emittedNow { m with out := m.out ++ msg ++ crlf }
  | .CleanedUp => .fallback { m with out := m.out ++ msg ++ [10] }
  | .Editing =>
    if m.log.isSome then .blocked
    else .deposited { m with log := some msg }

/-- Bytes of the `"^C"` message logged by `take_ctrlc`. -/
def caretC : List Nat := [94, 67]

/--
`Term::take_ctrlc` (src/src/term.rs lines 238-250): under the lock,
if `ctrlc` is clear return `false`; otherwise clear it, drop the lock,
log `"^C"` (result ignored; if the log slot is full the caller blocks
until it drains and then deposits) and return `true`.
-/
def take_ctrlc (m : Machine) : Machine × Bool :=
  if m.ctrlc then
    let m1 := { m with ctrlc := false }
    (match logCall m1 caretC with
     | .emittedNow m2 => m2
     | .fallback m2 => m2
     | .deposited m2 => m2
     | .blocked => m1,
     true)
  else (m, false)

/-- One result of the stdin thread's `br.read(&mut buf)` call. -/
inductive ReadEvent
  | byte (b : Nat)
  | zero
  | intr
  | otherErr
deriving DecidableEq, Repr

/--
One iteration of the stdin-reader thread's loop (src/src/term.rs lines
117-162).  Returns the updated machine and whether the loop continues:
a read of zero bytes sets `eof` and stops; byte `0x03` clears the
queued-but-unconsumed input and raises `ctrlc` instead of being queued;
any other byte is pushed onto the back of the queue; an
interrupted-system-call error sets `interrupted` and continues; any
other error stops the thread silently.
-/
def readerStep (m : Machine) : ReadEvent → Machine × Bool
  | .byte b =>
    if b = 3 then ({ m with ctrlc := true, input := [] }, true)
    else ({ m with input := m.input ++ [b] }, true)
  | .zero => ({ m with eof := true }, false)
  | .intr => ({ m with interrupted := true }, true)
  | .otherErr => (m, false)

/-! ## The command dispatcher (src/src/main.rs) -/

/-- `char::is_whitespace` restricted to single bytes, for
`str::split_whitespace`: space or the control range `\t`..`\r`. -/
def isWsp (b : Nat) : Bool := b = 32 || (9 ≤ b && b ≤ 13)

/-- Accumulator-based worker for `splitWhitespace`. -/
def splitWspAux : List Nat → List Nat → List (List Nat)
  | [], acc => if acc.isEmpty then [] else [acc.reverse]
  | b :: rest, acc =>
    if isWsp b then
      if acc.isEmpty then splitWspAux rest []
      else acc.reverse :: splitWspAux rest []
    else splitWspAux rest (b :: acc)

/-- `l.split_whitespace().collect::<Vec<_>>()`: the whitespace-separated
words of a byte string, empty words dropped. -/
def splitWhitespace (s : List Nat) : List (List Nat) := splitWspAux s []

/-- ASCII decimal digit test. -/
def isDigitByte (b : Nat) : Bool := 48 ≤ b && b ≤ 57

/-- Value of a list of ASCII decimal digit bytes. -/
def digitsVal (s : List Nat) : Nat := s.foldl (fun a b => a * 10 + (b - 48)) 0

/--
`megs.parse::<usize>()`: an optional leading `+`, then one or more
decimal digits; fails on anything else and on values that overflow a
64-bit `usize`.
-/
def parseUsize (s : List Nat) : Option Nat :=
  let t := match s with
    | 43 :: rest => rest
    | _ => s
  if !t.isEmpty && t.all isDigitByte && digitsVal t < 2 ^ 64 then
    some (digitsVal t)
  else none

/-- Bytes of `"touch"`. -/
def touchWord : List Nat := [116, 111, 117, 99, 104]

/-- Bytes of `"grow"`. -/
def growWord : List Nat := [103, 114, 111, 119]

/-- `sz = megs * 1024 * 1024` in the `grow` arm, as 64-bit `usize`
arithmetic. -/
def growSize (megs : Nat) : Nat := megs * 1024 * 1024 % 2 ^ 64

/--
The busy flag left behind by the dispatcher's handling of one received
`Activity::Line(Line::Line(l))` (src/src/main.rs lines 171-251), where
`tokens = l.split_whitespace()` and the editor thread has set `busy`
to `true` before sending the line.  `touch` ends in `fm.unbusy()` on
both its normal and its interrupted path; `grow` with a parsable size
sets `busy` again, works, and ends in `fm.unbusy()` on both paths; the
`grow` arms for a missing (`None`) or unparsable (`Err`) size only log
and never call `unbusy`; an unrecognized verb logs and calls
`fm.unbusy()`; an empty token list calls `fm.unbusy()`.
-/
def dispatchBusy (tokens : List (List Nat)) : Bool :=
  match tokens with
  | [] => false
  | cmd :: rest =>
    if cmd = touchWord then false
    else if cmd = growWord then
      match rest.head? with
      | none => true
      | some megs =>
        match parseUsize megs with
        | some _ => false
        | none => true
    else false

/-!
## General-purpose machines and helper lemmas
-/

/-- A machine in state `st` with pending input `input`, all flags clear,
an empty buffer, the `"fillmem> "` prompt, and nothing emitted yet. -/
def mkMachine (st : EditState) (input : List Nat) : Machine :=
  { state := st, input := input, eof := false, interrupted := false,
    ctrlc := false, buffer := [], prompt := promptBytes, sigterm := false,
    log := none, out := [], restores := 0 }

/-- Shape of the machine state in each kind of `lineLoop` outcome, for a
machine whose state was `s` when the loop began. -/
def stateShapeOK (s : EditState) : LineResult → Prop
  | .line _ m2 => m2.state = .Rest
  | .ended m2 => m2.state = .CleanedUp
  | .pending m2 => m2.state = s

/-- The edit-state transitions the specification allows: staying put,
`Rest → Editing` (entry to `line()`), `Editing → Rest` (carriage-return
submission), and `{Rest, Editing} → CleanedUp` (cleanup). -/
def allowedTransition (s t : EditState) : Prop :=
  s = t ∨ (s = .Rest ∧ t = .Editing) ∨ (s = .Editing ∧ t = .Rest) ∨
    (s ≠ .CleanedUp ∧ t = .CleanedUp)

theorem cleanup_state_eq (m : Machine) : (cleanup m).state = .CleanedUp := by
  unfold cleanup
  cases h : m.state <;> simp [h]

theorem cleanup_of_cleanedUp (m : Machine) (h : m.state = .CleanedUp) :
    cleanup m = m := by
  unfold cleanup
  simp [h]

theorem cleanup_idem (m : Machine) : cleanup (cleanup m) = cleanup m :=
  cleanup_of_cleanedUp _ (cleanup_state_eq m)

theorem cleanup_restores (m : Machine) (h : m.state ≠ .CleanedUp) :
    (cleanup m).restores = m.restores + 1 := by
  unfold cleanup
  cases hs : m.state <;> simp_all

/-!
### Step lemmas: one iteration of the `line()` loop
-/

theorem lineLoop_sigterm (m : Machine) (h : m.sigterm = true) :
    lineLoop m = .ended (cleanup m) := by
  rw [lineLoop.eq_def, if_pos h]

theorem lineLoop_ctrlc (m : Machine) (h1 : m.sigterm = false)
    (h2 : m.ctrlc = true) :
    lineLoop m = .ended (cleanup { m with ctrlc := false }) := by
  rw [lineLoop.eq_def, if_neg (by simp [h1]), if_pos h2]

theorem lineLoop_interrupted (m : Machine) (h1 : m.sigterm = false)
    (h2 : m.ctrlc = false) (h3 : m.interrupted = true) :
    lineLoop m = lineLoop { m with interrupted := false } := by
  rw [lineLoop.eq_def, if_neg (by simp [h1]), if_neg (by simp [h2]),
    if_pos h3]

theorem lineLoop_eof (m : Machine) (h1 : m.sigterm = false)
    (h2 : m.ctrlc = false) (h3 : m.interrupted = false) (h4 : m.eof = true) :
    lineLoop m = .ended (cleanup m) := by
  rw [lineLoop.eq_def, if_neg (by simp [h1]), if_neg (by simp [h2]),
    if_neg (by simp [h3]), if_pos h4]

theorem lineLoop_log (m : Machine) (msg : List Nat) (h1 : m.sigterm = false)
    (h2 : m.ctrlc = false) (h3 : m.interrupted = false) (h4 : m.eof = false)
    (hl : m.log = some msg) :
    lineLoop m = lineLoop (logWhileEditing { m with log := none } msg) := by
  rw [lineLoop.eq_def, if_neg (by simp [h1]), if_neg (by simp [h2]),
    if_neg (by simp [h3]), if_neg (by simp [h4])]
  split
  · rename_i msg2 heq
    rw [hl] at heq
    cases heq
    rfl
  · rename_i heq
    rw [hl] at heq
    cases heq

theorem lineLoop_noInput (m : Machine) (h1 : m.sigterm = false)
    (h2 : m.ctrlc = false) (h3 : m.interrupted = false) (h4 : m.eof = false)
    (hl : m.log = none) (hi : m.input = []) :
    lineLoop m = .pending m := by
  rw [lineLoop.eq_def, if_neg (by simp [h1]), if_neg (by simp [h2]),
    if_neg (by simp [h3]), if_neg (by simp [h4])]
  split
  · rename_i msg2 heq
    rw [hl] at heq
    cases heq
  · split
    · rfl
    · rename_i b2 rest2 heq
      rw [hi] at heq
      cases heq

/-- Popping one byte from the front of the queue: the byte dispatch of
the `line()` loop, with the flag and log checks already passed. -/
theorem lineLoop_cons (m : Machine) (b : Nat) (rest : List Nat)
    (h1 : m.sigterm = false) (h2 : m.ctrlc = false) (h3 : m.interrupted = false)
    (h4 : m.eof = false) (hl : m.log = none) (hi : m.input = b :: rest) :
    lineLoop m =
      if isGraphicOrSpace b then
        if m.buffer.length < 60 then
          lineLoop { m with
            input := rest
            buffer := m.buffer ++ [b]
            out := m.out ++ [b] }
        else lineLoop { m with input := rest }
      else if b = 3 then .ended (cleanup { m with input := rest })
      else if b = 4 then .ended (cleanup { m with input := rest })
      else if b = 13 then
        .line m.buffer
          { m with
            input := rest
            state := .Rest
            buffer := []
            out := m.out ++ crlf }
      else if b = 127 then
        if m.buffer.isEmpty then lineLoop { m with input := rest }
        else
          lineLoop { m with
            input := rest
            buffer := m.buffer.dropLast
            out := m.out ++ backspaceEcho }
      else if b = 21 then
        lineLoop (redrawPrompt { m with input := rest, buffer := [] })
      else
        lineLoop
          (ringBell (logWhileEditing { m with input := rest } (unknownMsg b)))
    := by
  rw [lineLoop.eq_def, if_neg (by simp [h1]), if_neg (by simp [h2]),
    if_neg (by simp [h3]), if_neg (by simp [h4])]
  split
  · rename_i msg2 heq
    rw [hl] at heq
    cases heq
  · split
    · rename_i heq
      rw [hi] at heq
      cases heq
    · rename_i b2 rest2 heq
      rw [hi] at heq
      cases heq
      rfl

/--
The `line()` loop only ever moves the edit state along the allowed
edges: a submitted line leaves `Rest`, an end-of-stream result leaves
`CleanedUp` (via `cleanup`), and a loop that is still waiting for input
leaves the state untouched.
-/
theorem lineLoop_state_shape (m : Machine) :
    stateShapeOK m.state (lineLoop m) := by
  induction m using lineLoop.induct
  case case1 m h1 =>
    rw [lineLoop.eq_def, if_pos h1]
    simp [stateShapeOK, cleanup_state_eq]
  case case2 m h1 h2 =>
    rw [lineLoop.eq_def, if_neg h1, if_pos h2]
    simp [stateShapeOK, cleanup_state_eq]
  case case3 m h1 h2 h3 ih =>
    rw [lineLoop.eq_def, if_neg h1, if_neg h2, if_pos h3]
    exact ih
  case case4 m h1 h2 h3 h4 =>
    rw [lineLoop.eq_def, if_neg h1, if_neg h2, if_neg h3, if_pos h4]
    simp [stateShapeOK, cleanup_state_eq]
  case case5 m h1 h2 h3 h4 msg hl ih =>
    rw [lineLoop.eq_def, if_neg h1, if_neg h2, if_neg h3, if_neg h4]
    split
    · rename_i msg2 heq
      rw [hl] at heq
      cases heq
      exact ih
    · rename_i heq
      rw [hl] at heq
      cases heq
  case case6 m h1 h2 h3 h4 hl hi =>
    rw [lineLoop.eq_def, if_neg h1, if_neg h2, if_neg h3, if_neg h4]
    split
    · rename_i msg2 heq
      rw [hl] at heq
      cases heq
    · split
      · simp [stateShapeOK]
      · rename_i b2 rest2 heq
        rw [hi] at heq
        cases heq
  case case7 m h1 h2 h3 h4 hl b rest hi hg hlen ih =>
    rw [lineLoop.eq_def, if_neg h1, if_neg h2, if_neg h3, if_neg h4]
    split
    · rename_i msg2 heq
      rw [hl] at heq
      cases heq
    · split
      · rename_i heq
        rw [hi] at heq
        cases heq
      · rename_i b2 rest2 heq
        rw [hi] at heq
        cases heq
        rw [if_pos hg, if_pos hlen]
        exact ih
  case case8 m h1 h2 h3 h4 hl b rest hi hg hlen ih =>
    rw [lineLoop.eq_def, if_neg h1, if_neg h2, if_neg h3, if_neg h4]
    split
    · rename_i msg2 heq
      rw [hl] at heq
      cases heq
    · split
      · rename_i heq
        rw [hi] at heq
        cases heq
      · rename_i b2 rest2 heq
        rw [hi] at heq
        cases heq
        rw [if_pos hg, if_neg hlen]
        exact ih
  case case9 m h1 h2 h3 h4 hl rest hi hg =>
    rw [lineLoop.eq_def, if_neg h1, if_neg h2, if_neg h3, if_neg h4]
    split
    · rename_i msg2 heq
      rw [hl] at heq
      cases heq
    · split
      · rename_i heq
        rw [hi] at heq
        cases heq
      · rename_i b2 rest2 heq
        rw [hi] at heq
        cases heq
        simp [stateShapeOK, cleanup_state_eq, isGraphicOrSpace]
  case case10 m h1 h2 h3 h4 hl rest hi hg hb3 =>
    rw [lineLoop.eq_def, if_neg h1, if_neg h2, if_neg h3, if_neg h4]
    split
    · rename_i msg2 heq
      rw [hl] at heq
      cases heq
    · split
      · rename_i heq
        rw [hi] at heq
        cases heq
      · rename_i b2 rest2 heq
        rw [hi] at heq
        cases heq
        simp [stateShapeOK, cleanup_state_eq, isGraphicOrSpace]
  case case11 m h1 h2 h3 h4 hl rest hi hg hb3 hb4 =>
    rw [lineLoop.eq_def, if_neg h1, if_neg h2, if_neg h3, if_neg h4]
    split
    · rename_i msg2 heq
      rw [hl] at heq
      cases heq
    · split
      · rename_i heq
        rw [hi] at heq
        cases heq
      · rename_i b2 rest2 heq
        rw [hi] at heq
        cases heq
        simp [stateShapeOK, isGraphicOrSpace]
  case case12 m h1 h2 h3 h4 hl rest hemp hi hg hb3 hb4 hb13 ih =>
    rw [lineLoop.eq_def, if_neg h1, if_neg h2, if_neg h3, if_neg h4]
    split
    · rename_i msg2 heq
      rw [hl] at heq
      cases heq
    · split
      · rename_i heq
        rw [hi] at heq
        cases heq
      · rename_i b2 rest2 heq
        rw [hi] at heq
        cases heq
        simp only [isGraphicOrSpace]
        norm_num
        have hemp2 : m.buffer = [] := by simpa using hemp
        rw [if_pos hemp2]
        exact ih
  case case13 m h1 h2 h3 h4 hl rest hemp hi hg hb3 hb4 hb13 ih =>
    rw [lineLoop.eq_def, if_neg h1, if_neg h2, if_neg h3, if_neg h4]
    split
    · rename_i msg2 heq
      rw [hl] at heq
      cases heq
    · split
      · rename_i heq
        rw [hi] at heq
        cases heq
      · rename_i b2 rest2 heq
        rw [hi] at heq
        cases heq
        simp only [isGraphicOrSpace]
        norm_num
        have hemp2 : ¬m.buffer = [] := by simpa using hemp
        rw [if_neg hemp2]
        exact ih
  case case14 m h1 h2 h3 h4 hl rest hi hg hb3 hb4 hb13 hb127 ih =>
    rw [lineLoop.eq_def, if_neg h1, if_neg h2, if_neg h3, if_neg h4]
    split
    · rename_i msg2 heq
      rw [hl] at heq
      cases heq
    · split
      · rename_i heq
        rw [hi] at heq
        cases heq
      · rename_i b2 rest2 heq
        rw [hi] at heq
        cases heq
        simp only [isGraphicOrSpace]
        norm_num
        exact ih
  case case15 m h1 h2 h3 h4 hl b rest hi hg hb3 hb4 hb13 hb127 hb21 ih =>
    rw [lineLoop.eq_def, if_neg h1, if_neg h2, if_neg h3, if_neg h4]
    split
    · rename_i msg2 heq
      rw [hl] at heq
      cases heq
    · split
      · rename_i heq
        rw [hi] at heq
        cases heq
      · rename_i b2 rest2 heq
        rw [hi] at heq
        cases heq
        rw [if_neg hg, if_neg hb3, if_neg hb4, if_neg hb13, if_neg hb127,
          if_neg hb21]
        exact ih

/-!
## C3 — cleanup() is idempotent
-/


/--
C3: `cleanup()` is idempotent: for every `N ≥ 1`, calling it `N` times
from any mix of paths restores the terminal attributes exactly once
(counted by `restores`), every call after the first is a no-op, and no
call reports an error (the embedding is total and the source swallows
the write/tcsetattr results with `.ok()`).
-/
theorem c3_cleanup_idempotent (m : Machine) (n : Nat) (h : 1 ≤ n) :
    cleanup^[n] m = cleanup m ∧
    (cleanup m).state = .CleanedUp ∧
    (m.state = .CleanedUp → cleanup m = m) ∧
    (m.state ≠ .CleanedUp → (cleanup^[n] m).restores = m.restores + 1) := by
  have hit : cleanup^[n] m = cleanup m := by
    induction n with
    | zero => omega
    | succ k ih =>
      rcases Nat.eq_or_lt_of_le h with h1 | h1
      · simp [← h1]
      · have hk : 1 ≤ k := by omega
        rw [Function.iterate_succ_apply', ih hk, cleanup_idem]
  refine ⟨hit, cleanup_state_eq m, cleanup_of_cleanedUp m, fun hne => ?_⟩
  rw [hit, cleanup_restores m hne]

/-- Witness for C3 at a concrete machine and `n = 3`. -/
theorem c3_witness :
    cleanup^[3] (mkMachine .Rest []) = cleanup (mkMachine .Rest []) ∧
    (cleanup^[3] (mkMachine .Rest [])).restores =
      (mkMachine .Rest []).restores + 1 := by
  obtain ⟨h1, -, -, h4⟩ :=
    c3_cleanup_idempotent (mkMachine .Rest []) 3 (by decide)
  exact ⟨h1, h4 (by decide)⟩

/-!
## C8 — the stdin reader task
-/

/--
C8: for every byte the reader task reads: `0x03` discards the
already-queued-but-unconsumed bytes and raises `ctrlc` instead of being
queued; any other byte is appended to the queue in order; a zero-byte
read sets `eof` and stops the task; an interrupted-system-call error
sets `interrupted` and keeps reading.
-/
theorem c8_reader_step (m : Machine) (b : Nat) (hb : b ≠ 3) :
    readerStep m (.byte 3) = ({ m with ctrlc := true, input := [] }, true) ∧
    readerStep m (.byte b) = ({ m with input := m.input ++ [b] }, true) ∧
    readerStep m .zero = ({ m with eof := true }, false) ∧
    readerStep m .intr = ({ m with interrupted := true }, true) := by
  refine ⟨?_, ?_, rfl, rfl⟩ <;> simp [readerStep, hb]

/-- Witness for C8 at a concrete machine and byte `97`. -/
theorem c8_witness :
    readerStep (mkMachine .Editing [103, 114]) (.byte 3) =
      ({ mkMachine .Editing [103, 114] with ctrlc := true, input := [] },
        true) ∧
    readerStep (mkMachine .Editing [103, 114]) (.byte 97) =
      ({ mkMachine .Editing [103, 114] with input := [103, 114, 97] },
        true) := by
  obtain ⟨h1, h2, -, -⟩ :=
    c8_reader_step (mkMachine .Editing [103, 114]) 97 (by decide)
  exact ⟨h1, h2⟩

/-!
## C2 — EditState transitions
-/

/--
C2: every state change performed by `line()` and `cleanup()` follows an
allowed transition: `Rest → Editing` on entry to `line()`, `Editing →
Rest` on carriage-return submission, `{Rest, Editing} → CleanedUp` in
`cleanup()`; no operation leaves `CleanedUp` (cleanup there is the
identity and `allowedTransition` admits no exit edge); and a `line()`
call made while another call holds `Editing` fails with an error.
-/
theorem c2_edit_state_transitions (m : Machine) :
    (∀ m1, lineEnter m = .ok m1 →
      m.state = .Rest ∧ m1.state = .Editing ∧
        allowedTransition m.state m1.state) ∧
    (m.state = .Editing →
      lineEnter m = .error "another thread is already editing") ∧
    (m.state = .CleanedUp → lineEnter m = .error "cleaned up already") ∧
    (allowedTransition m.state (cleanup m).state ∧
      (cleanup m).state = .CleanedUp ∧
      (m.state = .CleanedUp → cleanup m = m)) ∧
    (m.state = .Editing →
      (∀ l m2, lineLoop m = .line l m2 →
        m2.state = .Rest ∧ allowedTransition m.state m2.state) ∧
      (∀ m2, lineLoop m = .ended m2 →
        m2.state = .CleanedUp ∧ allowedTransition m.state m2.state) ∧
      (∀ m2, lineLoop m = .pending m2 → m2.state = .Editing)) ∧
    (∀ t, allowedTransition .CleanedUp t → t = .CleanedUp) := by
  have hshape := lineLoop_state_shape m
  refine ⟨?_, ?_, ?_, ⟨?_, cleanup_state_eq m, cleanup_of_cleanedUp m⟩, ?_, ?_⟩
  · intro m1 he
    unfold lineEnter at he
    cases hs : m.state <;> rw [hs] at he <;> simp at he
    refine ⟨rfl, ?_, ?_⟩
    · rw [← he]
    · rw [← he]
      exact Or.inr (Or.inl ⟨rfl, rfl⟩)
  · intro hs
    unfold lineEnter
    rw [hs]
  · intro hs
    unfold lineEnter
    rw [hs]
  · cases hs : m.state
    · exact Or.inr (Or.inr (Or.inr ⟨by simp [hs], cleanup_state_eq m⟩))
    · exact Or.inr (Or.inr (Or.inr ⟨by simp [hs], cleanup_state_eq m⟩))
    · rw [cleanup_of_cleanedUp m hs, hs]
      exact Or.inl rfl
  · intro hs
    refine ⟨?_, ?_, ?_⟩
    · intro l m2 he
      rw [he] at hshape
      simp only [stateShapeOK] at hshape
      exact ⟨hshape, by rw [hs, hshape]; exact Or.inr (Or.inr (Or.inl ⟨rfl, rfl⟩))⟩
    · intro m2 he
      rw [he] at hshape
      simp only [stateShapeOK] at hshape
      exact ⟨hshape, by rw [hs, hshape]; exact Or.inr (Or.inr (Or.inr (by simp)))⟩
    · intro m2 he
      rw [he] at hshape
      simp only [stateShapeOK] at hshape
      rw [hshape, hs]
  · intro t ht
    rcases ht with h | ⟨h, -⟩ | ⟨h, -⟩ | ⟨h, -⟩
    · exact h.symm
    · cases h
    · cases h
    · simp at h

/-- Witness for C2 at concrete machines. -/
theorem c2_witness :
    lineEnter (mkMachine .Editing []) =
      .error "another thread is already editing" ∧
    lineEnter (mkMachine .CleanedUp []) = .error "cleaned up already" ∧
    (cleanup (mkMachine .Editing [])).state = .CleanedUp ∧
    lineEnter (mkMachine .Rest []) =
      .ok { mkMachine .Rest [] with state := .Editing, out := promptBytes } ∧
    ({ mkMachine .Rest [] with state := .Editing, out := promptBytes }
      : Machine).state = .Editing := by
  refine ⟨(c2_edit_state_transitions (mkMachine .Editing [])).2.1 rfl,
    (c2_edit_state_transitions (mkMachine .CleanedUp [])).2.2.1 rfl,
    ((c2_edit_state_transitions (mkMachine .Editing [])).2.2.2.1).2.1,
    ?_, ?_⟩
  · rfl
  · exact (((c2_edit_state_transitions (mkMachine .Rest [])).1
      { mkMachine .Rest [] with state := .Editing, out := promptBytes }
      (by rfl)).2).1

/-!
## C9 — backspace on an empty buffer
-/

/--
C9: processing a backspace byte (`0x7f`) while the edit buffer is empty
is a no-op: the loop just continues with the byte consumed, the buffer
stays empty, and no byte is emitted to the terminal.
-/
theorem c9_backspace_empty_noop (m : Machine) (rest : List Nat)
    (h1 : m.sigterm = false) (h2 : m.ctrlc = false) (h3 : m.interrupted = false)
    (h4 : m.eof = false) (hl : m.log = none) (hi : m.input = 127 :: rest)
    (hb : m.buffer = []) :
    lineLoop m = lineLoop { m with input := rest } ∧
    ({ m with input := rest } : Machine).buffer = [] ∧
    ({ m with input := rest } : Machine).out = m.out := by
  refine ⟨?_, by simp [hb], rfl⟩
  rw [lineLoop_cons m 127 rest h1 h2 h3 h4 hl hi]
  simp [isGraphicOrSpace, hb]

/-- Witness for C9 at a concrete machine. -/
theorem c9_witness :
    lineLoop (mkMachine .Editing [127]) =
      lineLoop { mkMachine .Editing [127] with input := [] } ∧
    ({ mkMachine .Editing [127] with input := [] } : Machine).buffer = [] ∧
    ({ mkMachine .Editing [127] with input := [] } : Machine).out =
      (mkMachine .Editing [127]).out :=
  c9_backspace_empty_noop (mkMachine .Editing [127]) [] rfl rfl rfl rfl rfl
    rfl rfl

/-!
## C10 — a stale ctrl-C flag ends the next line() call
-/

/--
C10: if `ctrlc` is already set when `line()` is called from `Rest`, the
call clears the flag, runs `cleanup()`, and returns an end-of-stream
result without consuming any input byte; the flag is consumed, so a
later `take_ctrlc()` reports false.
-/
theorem c10_unconsumed_ctrlc (m : Machine) (h1 : m.state = .Rest)
    (h2 : m.ctrlc = true) (h3 : m.sigterm = false) :
    ∃ r, lineCall m = .ok (.ended r) ∧ r.input = m.input ∧ r.ctrlc = false ∧
      r.state = .CleanedUp ∧ take_ctrlc r = (r, false) := by
  refine ⟨cleanup { m with
    buffer := []
    state := .Editing
    out := m.out ++ m.prompt
    ctrlc := false }, ?_, ?_, ?_, cleanup_state_eq _, ?_⟩
  · simp only [lineCall, lineEnter, h1]
    rw [lineLoop_ctrlc { m with
      buffer := []
      state := .Editing
      out := m.out ++ m.prompt } (by simpa using h3) (by simpa using h2)]
  · simp [cleanup]
  · simp [cleanup]
  · have hc : (cleanup { m with
        buffer := []
        state := .Editing
        out := m.out ++ m.prompt
        ctrlc := false }).ctrlc = false := by
      simp [cleanup]
    unfold take_ctrlc
    rw [hc]
    simp

/-- Witness for C10 at a concrete machine with one queued byte. -/
theorem c10_witness :
    ∃ r, lineCall { mkMachine .Rest [97] with ctrlc := true } =
        .ok (.ended r) ∧
      r.input = ({ mkMachine .Rest [97] with ctrlc := true } : Machine).input ∧
      r.ctrlc = false ∧ r.state = .CleanedUp ∧ take_ctrlc r = (r, false) :=
  c10_unconsumed_ctrlc { mkMachine .Rest [97] with ctrlc := true } rfl rfl rfl


/-!
## C4 — the fixed order of checks in the line() loop
-/

/--
C4: each iteration of `line()`'s loop checks, in the fixed order,
sigterm, ctrlc, interrupted, eof, the pending log, and only then the
input queue; sigterm/ctrlc/eof (and a popped `0x03` or `0x04` byte)
run `cleanup()` and produce an end-of-stream result, with the ctrlc
flag cleared first; an interrupted flag is cleared and retried with no
visible output; and a `0x03` delivered by the reader during editing
yields end-of-stream with the state left `CleanedUp`.
-/
theorem c4_loop_check_order (m : Machine) (msg : List Nat) (rest : List Nat) :
    (m.sigterm = true → lineLoop m = .ended (cleanup m)) ∧
    (m.sigterm = false → m.ctrlc = true →
      lineLoop m = .ended (cleanup { m with ctrlc := false }) ∧
      (cleanup { m with ctrlc := false }).ctrlc = false) ∧
    (m.sigterm = false → m.ctrlc = false → m.interrupted = true →
      lineLoop m = lineLoop { m with interrupted := false } ∧
      ({ m with interrupted := false } : Machine).out = m.out) ∧
    (m.sigterm = false → m.ctrlc = false → m.interrupted = false →
      m.eof = true → lineLoop m = .ended (cleanup m)) ∧
    (m.sigterm = false → m.ctrlc = false → m.interrupted = false →
      m.eof = false → m.log = some msg →
      lineLoop m = lineLoop (logWhileEditing { m with log := none } msg)) ∧
    (m.sigterm = false → m.ctrlc = false → m.interrupted = false →
      m.eof = false → m.log = none → m.input = 3 :: rest →
      lineLoop m = .ended (cleanup { m with input := rest })) ∧
    (m.sigterm = false → m.ctrlc = false → m.interrupted = false →
      m.eof = false → m.log = none → m.input = 4 :: rest →
      lineLoop m = .ended (cleanup { m with input := rest })) ∧
    (m.state = .Editing → m.sigterm = false →
      lineLoop (readerStep m (.byte 3)).1 =
        .ended (cleanup { m with input := [], ctrlc := false }) ∧
      (cleanup { m with input := [], ctrlc := false }).state = .CleanedUp) := by
  have hcc : ∀ m2 : Machine, (cleanup m2).ctrlc = m2.ctrlc := by
    intro m2
    unfold cleanup
    split <;> rfl
  refine ⟨lineLoop_sigterm m, ?_, ?_, ?_, ?_, ?_, ?_, ?_⟩
  · intro h1 h2
    exact ⟨lineLoop_ctrlc m h1 h2, by rw [hcc]⟩
  · intro h1 h2 h3
    exact ⟨lineLoop_interrupted m h1 h2 h3, rfl⟩
  · intro h1 h2 h3 h4
    exact lineLoop_eof m h1 h2 h3 h4
  · intro h1 h2 h3 h4 hl
    exact lineLoop_log m msg h1 h2 h3 h4 hl
  · intro h1 h2 h3 h4 hl hi
    rw [lineLoop_cons m 3 rest h1 h2 h3 h4 hl hi]
    simp [isGraphicOrSpace]
  · intro h1 h2 h3 h4 hl hi
    rw [lineLoop_cons m 4 rest h1 h2 h3 h4 hl hi]
    simp [isGraphicOrSpace]
  · intro hst h1
    have hr : (readerStep m (.byte 3)).1 =
        { m with input := [], ctrlc := true } := by
      simp [readerStep]
    rw [hr, lineLoop_ctrlc { m with input := [], ctrlc := true }
      (by simpa using h1) rfl]
    exact ⟨rfl, cleanup_state_eq _⟩

/-- Witness for C4 at concrete machines. -/
theorem c4_witness :
    lineLoop { mkMachine .Editing [97] with sigterm := true } =
      .ended (cleanup { mkMachine .Editing [97] with sigterm := true }) ∧
    lineLoop { mkMachine .Editing [97] with ctrlc := true } =
      .ended (cleanup (mkMachine .Editing [97])) ∧
    lineLoop { mkMachine .Editing [97] with interrupted := true } =
      lineLoop (mkMachine .Editing [97]) ∧
    lineLoop { mkMachine .Editing [] with eof := true } =
      .ended (cleanup { mkMachine .Editing [] with eof := true }) ∧
    lineLoop { mkMachine .Editing [97] with log := some [104, 105] } =
      lineLoop (logWhileEditing (mkMachine .Editing [97]) [104, 105]) ∧
    lineLoop (mkMachine .Editing [3, 97]) =
      .ended (cleanup { mkMachine .Editing [3, 97] with input := [97] }) ∧
    lineLoop (readerStep (mkMachine .Editing [103]) (.byte 3)).1 =
      .ended (cleanup { mkMachine .Editing [103] with input := [] }) ∧
    (cleanup { mkMachine .Editing [103] with input := [] }).state =
      .CleanedUp := by
  refine ⟨(c4_loop_check_order { mkMachine .Editing [97] with sigterm := true }
      [] []).1 rfl,
    ((c4_loop_check_order { mkMachine .Editing [97] with ctrlc := true }
      [] []).2.1 rfl rfl).1,
    ((c4_loop_check_order { mkMachine .Editing [97] with interrupted := true }
      [] []).2.2.1 rfl rfl rfl).1,
    (c4_loop_check_order { mkMachine .Editing [] with eof := true }
      [] []).2.2.2.1 rfl rfl rfl rfl,
    (c4_loop_check_order { mkMachine .Editing [97] with log := some [104, 105] }
      [104, 105] []).2.2.2.2.1 rfl rfl rfl rfl rfl,
    (c4_loop_check_order (mkMachine .Editing [3, 97])
      [] [97]).2.2.2.2.2.1 rfl rfl rfl rfl rfl rfl,
    ((c4_loop_check_order (mkMachine .Editing [103])
      [] []).2.2.2.2.2.2.2 rfl rfl).1,
    ((c4_loop_check_order (mkMachine .Editing [103])
      [] []).2.2.2.2.2.2.2 rfl rfl).2⟩

/-!
## C5 — the one-slot pending log
-/

/--
C5: a `log()` call made while an edit is in progress blocks exactly
when the one-slot pending log is occupied and otherwise deposits its
message; the editing loop takes a deposited message before reading any
input byte and renders it via `log_while_editing`, whose emission is
the line-clear, the message, a line break, and then a redraw of the
prompt and buffer byte-identical to their pre-log content.
-/
theorem c5_one_slot_log (m : Machine) (msg old : List Nat) :
    (m.state = .Editing → m.log = some old → logCall m msg = .blocked) ∧
    (m.state = .Editing → m.log = none →
      logCall m msg = .deposited { m with log := some msg }) ∧
    (m.sigterm = false → m.ctrlc = false → m.interrupted = false →
      m.eof = false → m.log = some msg →
      lineLoop m = lineLoop (logWhileEditing { m with log := none } msg)) ∧
    ((logWhileEditing m msg).out =
      m.out ++ lineClear ++ msg ++ crlf ++ lineClear ++ m.prompt ++ m.buffer ∧
      (logWhileEditing m msg).prompt = m.prompt ∧
      (logWhileEditing m msg).buffer = m.buffer) := by
  refine ⟨?_, ?_, lineLoop_log m msg, ?_, rfl, rfl⟩
  · intro hst hl
    simp [logCall, hst, hl]
  · intro hst hl
    simp [logCall, hst, hl]
  · simp [logWhileEditing, redrawPrompt]

/-- Witness for C5 at a concrete editing machine. -/
theorem c5_witness :
    logCall { mkMachine .Editing [] with log := some [104] } [105] =
      .blocked ∧
    logCall (mkMachine .Editing []) [105] =
      .deposited { mkMachine .Editing [] with log := some [105] } ∧
    lineLoop { mkMachine .Editing [97] with log := some [105] } =
      lineLoop (logWhileEditing (mkMachine .Editing [97]) [105]) := by
  refine ⟨(c5_one_slot_log { mkMachine .Editing [] with log := some [104] }
      [105] [104]).1 rfl rfl,
    (c5_one_slot_log (mkMachine .Editing []) [105] []).2.1 rfl rfl,
    (c5_one_slot_log { mkMachine .Editing [97] with log := some [105] }
      [105] []).2.2.1 rfl rfl rfl rfl rfl⟩


/-!
## C6 — printable input accumulates in order up to the 60-byte cap
-/

/-- Feeding only printable/space bytes to the loop leaves it waiting for
more input with the buffer extended by those bytes, capped at 60. -/
theorem lineLoop_all_graphic (input : List Nat) :
    ∀ m : Machine, m.sigterm = false → m.ctrlc = false →
      m.interrupted = false → m.eof = false → m.log = none →
      m.input = input → (∀ b ∈ input, isGraphicOrSpace b = true) →
      m.buffer.length ≤ 60 →
      ∃ m2, lineLoop m = .pending m2 ∧
        m2.buffer = (m.buffer ++ input).take 60 := by
  induction input with
  | nil =>
    intro m h1 h2 h3 h4 hl hi hall hlen
    refine ⟨m, lineLoop_noInput m h1 h2 h3 h4 hl hi, ?_⟩
    simp [List.take_of_length_le hlen]
  | cons b rest ih =>
    intro m h1 h2 h3 h4 hl hi hall hlen
    have hg : isGraphicOrSpace b = true := hall b (by simp)
    rw [lineLoop_cons m b rest h1 h2 h3 h4 hl hi, if_pos hg]
    rcases Nat.lt_or_ge m.buffer.length 60 with hlt | hge
    · rw [if_pos hlt]
      obtain ⟨m2, hrun, hbuf⟩ := ih
        { m with
          input := rest
          buffer := m.buffer ++ [b]
          out := m.out ++ [b] }
        h1 h2 h3 h4 hl rfl (fun b2 hb2 => hall b2 (by simp [hb2]))
        (by simp; omega)
      refine ⟨m2, hrun, ?_⟩
      simpa using hbuf
    · have h60 : m.buffer.length = 60 := Nat.le_antisymm hlen hge
      rw [if_neg (by omega)]
      obtain ⟨m2, hrun, hbuf⟩ := ih { m with input := rest }
        h1 h2 h3 h4 hl rfl (fun b2 hb2 => hall b2 (by simp [hb2])) hlen
      refine ⟨m2, hrun, ?_⟩
      rw [hbuf]
      show (m.buffer ++ rest).take 60 = (m.buffer ++ b :: rest).take 60
      rw [List.take_left' h60, List.take_left' h60]

/--
C6 (amended): for a byte sequence consisting only of printable/space
bytes — so no carriage return, no ctrl-C/D, no unmapped controls, and
additionally no backspace (`0x7f`) and no ctrl-U (`0x15`) — the edit
buffer after `line()` consumes the sequence is exactly the sequence in
order, truncated at the 60-character cap.
-/
theorem c6_printable_in_order (input : List Nat) (m : Machine)
    (h1 : m.sigterm = false) (h2 : m.ctrlc = false) (h3 : m.interrupted = false)
    (h4 : m.eof = false) (hl : m.log = none) (hi : m.input = input)
    (hb : m.buffer = []) (hall : ∀ b ∈ input, isGraphicOrSpace b = true) :
    ∃ m2, lineLoop m = .pending m2 ∧ m2.buffer = input.take 60 := by
  obtain ⟨m2, hrun, hbuf⟩ :=
    lineLoop_all_graphic input m h1 h2 h3 h4 hl hi hall (by simp [hb])
  exact ⟨m2, hrun, by simpa [hb] using hbuf⟩

/-- Witness for C6 at a concrete machine: typing `"hi "` leaves the
buffer holding exactly those three bytes. -/
theorem c6_witness :
    ∃ m2, lineLoop (mkMachine .Editing [104, 105, 32]) = .pending m2 ∧
      m2.buffer = [104, 105, 32].take 60 :=
  c6_printable_in_order [104, 105, 32] (mkMachine .Editing [104, 105, 32])
    rfl rfl rfl rfl rfl rfl rfl (by decide)

/--
Counterexample to C6 as stated: the sequence `[97, 0x7f]` (letter `a`
then backspace) contains no carriage return, no ctrl-C/D and no
unmapped control byte, yet the buffer afterwards is empty while the
printable/space bytes of the sequence in order, truncated at the cap,
are `[97]`.
-/
theorem c6_counterexample :
    lineLoop (mkMachine .Editing [97, 127]) =
      .pending { mkMachine .Editing [97, 127] with
        input := []
        out := [97, 8, 32, 8] } ∧
    ({ mkMachine .Editing [97, 127] with
      input := []
      out := [97, 8, 32, 8] } : Machine).buffer ≠
      ((mkMachine .Editing [97, 127]).input.filter isGraphicOrSpace).take
        60 := by
  constructor
  · simp [lineLoop, mkMachine, isGraphicOrSpace, backspaceEcho]
  · decide

/-!
## C7 — carriage return submits the line; grow computes its size
-/

/--
C7: popping a carriage return returns the buffer as a completed line,
clears the buffer, moves the state back to `Rest` and emits a line
break: feeding `"g","r","o","w"," ","5",CR` to `line()` yields
`Line("grow 5")`, and the grow dispatch parses `"5"` and computes the
target size `5 * 1024 * 1024`.
-/
theorem c7_cr_submits_grow :
    lineCall (mkMachine .Rest [103, 114, 111, 119, 32, 53, 13]) =
      .ok (.line [103, 114, 111, 119, 32, 53]
        { mkMachine .Rest [103, 114, 111, 119, 32, 53, 13] with
          input := []
          buffer := []
          out := promptBytes ++ [103, 114, 111, 119, 32, 53, 13, 10] }) ∧
    splitWhitespace [103, 114, 111, 119, 32, 53] = [growWord, [53]] ∧
    parseUsize [53] = some 5 ∧
    growSize 5 = 5 * 1024 * 1024 := by
  refine ⟨?_, by decide, by decide, by decide⟩
  simp [lineCall, lineEnter, lineLoop, mkMachine, isGraphicOrSpace,
    promptBytes, crlf]

/-!
## C1 — the busy flag after dispatching a command
-/

/--
C1 fails on the code: the dispatcher's `grow` arms for a missing or
unparsable size only log and never call `unbusy`, so the busy flag set
by the editor thread stays `true` and the next `line()` is never
issued.  This theorem evaluates the embedded dispatcher at the failing
inputs `"grow"` and `"grow x"` (busy left `true`) and, for contrast, at
`"touch"`, `"grow 5"`, an empty line, and an unknown verb (busy
correctly left `false`).
-/
theorem c1_busy_left_true_on_grow_error :
    dispatchBusy (splitWhitespace growWord) = true ∧
    dispatchBusy (splitWhitespace (growWord ++ [32, 120])) = true ∧
    dispatchBusy (splitWhitespace touchWord) = false ∧
    dispatchBusy (splitWhitespace (growWord ++ [32, 53])) = false ∧
    dispatchBusy (splitWhitespace []) = false ∧
    dispatchBusy (splitWhitespace [104, 109]) = false := by
  decide


end Fillmem
